import Mathlib

/-!
Shallow embedding of the custom 2-D convolution operator of
`code/student_code.py`: the autograd function `CustomConv2DFunction`
(forward and backward passes built from `unfold`, batched matrix
multiplication and `fold`) and the parameter-owning module wrapper
`CustomConv2d`.

Tensors are modelled as shape-carrying total functions into `ℤ`;
reads outside the recorded shape are unconstrained junk, and every
theorem quantifies only over in-range indices.  The torch primitives
the source calls (`torch.nn.functional.unfold` / `fold`, `Tensor.view`,
`Tensor.matmul`, `Tensor.transpose`, `Tensor.sum`) are embedded as
operations on these tensors with their documented index semantics.
Python `assert` failures in `forward` and the `AttributeError` raised
by `bias.expand` when `bias is None` are modelled by `Except ConvError`.
-/

namespace StudentCode

/-- Rank-1 tensor: a length and total data. -/
structure Tensor1 where
  size0 : Nat
  data : Nat → ℤ

/-- Rank-2 tensor. -/
structure Tensor2 where
  size0 : Nat
  size1 : Nat
  data : Nat → Nat → ℤ

/-- Rank-3 tensor. -/
structure Tensor3 where
  size0 : Nat
  size1 : Nat
  size2 : Nat
  data : Nat → Nat → Nat → ℤ

/-- Rank-4 tensor. -/
structure Tensor4 where
  size0 : Nat
  size1 : Nat
  size2 : Nat
  size3 : Nat
  data : Nat → Nat → Nat → Nat → ℤ

/-- Read of a rank-4 tensor at coordinates of the zero-padded plane:
spatial index `i` of the padded tensor corresponds to `i - p` of the
original, and reads inside the padding border return `0`. -/
def Tensor4.padded (t : Tensor4) (p : Nat) (n c i j : Nat) : ℤ :=
  if p ≤ i ∧ i < t.size2 + p ∧ p ≤ j ∧ j < t.size3 + p then t.data n c (i - p) (j - p) else 0

/-- Number of sliding-window positions along one spatial axis of length `m`
for kernel `k`, padding `p`, stride `s`: `⌊(m + 2p - k) / s⌋ + 1`. -/
def outDim (m k p s : Nat) : Nat :=
  (m + 2 * p - k) / s + 1

/-- `torch.nn.functional.unfold` with square `k × k` kernel, symmetric
padding `p` and stride `s`: gathers every sliding-window receptive field
of a `(N, C, H, W)` tensor into a column, giving `(N, C·k·k, L)` with
`L = outDim H · outDim W`; column `l`, row `q = c·k·k + ki·k + kj` holds
the padded read at `((l / outW)·s + ki, (l % outW)·s + kj)`. -/
def unfold (t : Tensor4) (k p s : Nat) : Tensor3 where
  size0 := t.size0
  size1 := t.size1 * (k * k)
  size2 := outDim t.size2 k p s * outDim t.size3 k p s
  data := fun n q l =>
    t.padded p n (q / (k * k))
      (l / outDim t.size3 k p s * s + q % (k * k) / k)
      (l % outDim t.size3 k p s * s + q % (k * k) % k)

/-- `torch.nn.functional.fold` with square `k × k` kernel, symmetric
padding `p` and stride `s`, scattering columns `(N, C·k·k, L)` back into
a spatial `(N, C, h, w)` tensor and summing the contributions of every
overlapping receptive field that touches a pixel. -/
def fold (cols : Tensor3) (h w k p s : Nat) : Tensor4 where
  size0 := cols.size0
  size1 := cols.size1 / (k * k)
  size2 := h
  size3 := w
  data := fun n c i j =>
    ∑ li ∈ Finset.range (outDim h k p s), ∑ lj ∈ Finset.range (outDim w k p s),
      ∑ ki ∈ Finset.range k, ∑ kj ∈ Finset.range k,
        if li * s + ki = i + p ∧ lj * s + kj = j + p then
          cols.data n (c * (k * k) + ki * k + kj) (li * outDim w k p s + lj)
        else 0

/-- `Tensor.t`: transpose of a rank-2 tensor. -/
def Tensor2.t (m : Tensor2) : Tensor2 where
  size0 := m.size1
  size1 := m.size0
  data := fun i j => m.data j i

/-- `Tensor.transpose(1, 2)` on a rank-3 tensor. -/
def Tensor3.transpose12 (a : Tensor3) : Tensor3 where
  size0 := a.size0
  size1 := a.size2
  size2 := a.size1
  data := fun n i j => a.data n j i

/-- `Tensor.matmul` of a rank-3 tensor `(N, P, Q)` with a broadcast
rank-2 tensor `(Q, R)`, giving `(N, P, R)`. -/
def Tensor3.matmul2 (a : Tensor3) (b : Tensor2) : Tensor3 where
  size0 := a.size0
  size1 := a.size1
  size2 := b.size1
  data := fun n i j => ∑ q ∈ Finset.range a.size2, a.data n i q * b.data q j

/-- `Tensor.matmul` of two rank-3 tensors, batched over the first axis. -/
def Tensor3.matmul3 (a b : Tensor3) : Tensor3 where
  size0 := a.size0
  size1 := a.size1
  size2 := b.size2
  data := fun n i j => ∑ q ∈ Finset.range a.size2, a.data n i q * b.data n q j

/-- Elementwise sum of two rank-3 tensors (shapes taken from the first). -/
def Tensor3.add (a b : Tensor3) : Tensor3 where
  size0 := a.size0
  size1 := a.size1
  size2 := a.size2
  data := fun n i j => a.data n i j + b.data n i j

/-- `weight.view(weight.size(0), -1)`: flatten the trailing three axes
of a rank-4 tensor in row-major order. -/
def Tensor4.flatten2 (w : Tensor4) : Tensor2 where
  size0 := w.size0
  size1 := w.size1 * (w.size2 * w.size3)
  data := fun f q =>
    w.data f (q / (w.size2 * w.size3)) (q % (w.size2 * w.size3) / w.size3)
      (q % (w.size2 * w.size3) % w.size3)

/-- `Tensor.sum((0))` on a rank-3 tensor: sum over the batch axis. -/
def Tensor3.sumDim0 (a : Tensor3) : Tensor2 where
  size0 := a.size1
  size1 := a.size2
  data := fun i j => ∑ n ∈ Finset.range a.size0, a.data n i j

/-- `m.view(m.size(0), -1, k, k)`: reinterpret a rank-2 tensor
`(F, C·k·k)` as `(F, C, k, k)` in row-major order. -/
def Tensor2.view4 (m : Tensor2) (k : Nat) : Tensor4 where
  size0 := m.size0
  size1 := m.size1 / (k * k)
  size2 := k
  size3 := k
  data := fun f c ki kj => m.data f (c * (k * k) + ki * k + kj)

/-- `Tensor.sum((0, 2, 3))` on a rank-4 tensor: sum over the batch and
both spatial axes, leaving a vector indexed by the channel axis. -/
def Tensor4.sum023 (g : Tensor4) : Tensor1 where
  size0 := g.size1
  data := fun f =>
    ∑ n ∈ Finset.range g.size0, ∑ i ∈ Finset.range g.size2, ∑ j ∈ Finset.range g.size3,
      g.data n f i j

/-- Errors `CustomConv2DFunction.forward` can raise: one constructor per
Python `assert` (lines 42-45 and 55-56 of the source), plus the
`AttributeError` that `bias.expand` raises when `bias is None`. -/
inductive ConvError where
  | assertSquareKernel
  | assertChannelMatch
  | assertPositiveStride
  | assertNonnegPadding
  | assertKernelFitsHeight
  | assertKernelFitsWidth
  | attributeErrorBiasNone
deriving DecidableEq

/-- Whether an error is one of the precondition `assert` failures (as
opposed to the `AttributeError` on a missing bias). -/
def ConvError.isAssert : ConvError → Bool
  | .attributeErrorBiasNone => false
  | _ => true

/-- The computation performed by `CustomConv2DFunction.forward` once all
asserts have passed and `bias` is present (source lines 62-72):
unfold the input, flatten the weight, batched matrix multiply, add the
expanded bias, and fold the `(N, C_out, L)` result back to spatial
layout with a `1 × 1` kernel. -/
def forwardResult (input_feats weight : Tensor4) (b : Tensor1) (stride padding : ℤ) : Tensor4 :=
  let kernel_size := weight.size2
  let s := stride.toNat
  let p := padding.toNat
  let input_feats_unfold := unfold input_feats kernel_size p s
  let weight_unfold := weight.flatten2
  let out_unfold := (input_feats_unfold.transpose12.matmul2 weight_unfold.t).transpose12
  let bias_unfold : Tensor3 :=
    { size0 := out_unfold.size0
      size1 := out_unfold.size1
      size2 := out_unfold.size2
      data := fun _ f _ => b.data f }
  let out_plus := out_unfold.add bias_unfold
  let out_dim1 := outDim input_feats.size2 kernel_size p s
  let out_dim2 := outDim input_feats.size3 kernel_size p s
  fold out_plus out_dim1 out_dim2 1 0 1

/-- `CustomConv2DFunction.forward`: the Python asserts are checked in
source order; then the bias is expanded (raising `AttributeError` when
it is `None`) and the convolution pipeline of `forwardResult` runs. -/
def CustomConv2DFunction.forward (input_feats weight : Tensor4) (bias : Option Tensor1)
    (stride padding : ℤ) : Except ConvError Tensor4 :=
  if weight.size2 = weight.size3 then
    if input_feats.size1 = weight.size1 then
      if 0 < stride then
        if 0 ≤ padding then
          if (weight.size2 : ℤ) ≤ (input_feats.size2 : ℤ) + 2 * padding then
            if (weight.size2 : ℤ) ≤ (input_feats.size3 : ℤ) + 2 * padding then
              match bias with
              | none => Except.error ConvError.attributeErrorBiasNone
              | some b => Except.ok (forwardResult input_feats weight b stride padding)
            else Except.error ConvError.assertKernelFitsWidth
          else Except.error ConvError.assertKernelFitsHeight
        else Except.error ConvError.assertNonnegPadding
      else Except.error ConvError.assertPositiveStride
    else Except.error ConvError.assertChannelMatch
  else Except.error ConvError.assertSquareKernel

/-- The conjunction of the six `assert`ed preconditions of
`CustomConv2DFunction.forward`. -/
abbrev forwardPrecond (input_feats weight : Tensor4) (stride padding : ℤ) : Prop :=
  weight.size2 = weight.size3 ∧ input_feats.size1 = weight.size1 ∧ 0 < stride ∧ 0 ≤ padding ∧
    (weight.size2 : ℤ) ≤ (input_feats.size2 : ℤ) + 2 * padding ∧
    (weight.size2 : ℤ) ≤ (input_feats.size3 : ℤ) + 2 * padding

/-- The context saved by `forward` via `ctx.save_for_backward` and the
`ctx.<attr>` assignments: the unfolded input, the flattened weight, the
weight, the optional bias, and the stride / padding / input spatial
dimensions. -/
structure Context where
  input_feats_unfold : Tensor3
  weight_unfold : Tensor2
  weight : Tensor4
  bias : Option Tensor1
  stride : Nat
  padding : Nat
  input_height : Nat
  input_width : Nat

/-- The five-component tuple returned by `CustomConv2DFunction.backward`:
gradients for the input, weight and (optionally) bias arguments, and the
two `None` placeholders for the stride and padding arguments. -/
structure BackwardResult where
  grad_input : Tensor4
  grad_weight : Tensor4
  grad_bias : Option Tensor1
  grad_stride : Option ℤ
  grad_padding : Option ℤ

/-- `CustomConv2DFunction.backward` (source lines 95-121):
`grad_output` is unfolded with a `1 × 1` kernel, projected through the
flattened weight (transposed) and folded back with the forward's kernel
size, padding and stride to give `grad_input`; the cached patches are
contracted with the unfolded `grad_output` and summed over the batch to
give `grad_weight`; `grad_bias` is the sum of `grad_output` over axes
`(0, 2, 3)` when a bias was saved and its gradient is requested. -/
def CustomConv2DFunction.backward (ctx : Context) (grad_output : Tensor4)
    (needs_input_grad_2 : Bool) : BackwardResult :=
  let kernel_size := ctx.weight.size2
  let grad_output_unfold := unfold grad_output 1 0 1
  let grad_input_unfold := (grad_output_unfold.transpose12.matmul2 ctx.weight_unfold).transpose12
  let grad_input :=
    fold grad_input_unfold ctx.input_height ctx.input_width kernel_size ctx.padding ctx.stride
  let grad_weight_unfold := (ctx.input_feats_unfold.matmul3 grad_output_unfold.transpose12).transpose12
  let grad_weight := grad_weight_unfold.sumDim0.view4 kernel_size
  let grad_bias :=
    if ctx.bias.isSome && needs_input_grad_2 then some grad_output.sum023 else none
  { grad_input := grad_input
    grad_weight := grad_weight
    grad_bias := grad_bias
    grad_stride := none
    grad_padding := none }

/-- The `CustomConv2d` module: the configuration handed to `__init__`
together with the registered `weight` parameter (shape
`(out_channels, in_channels, kernel_size, kernel_size)`) and the
optional `bias` parameter (shape `(out_channels)`). -/
structure CustomConv2d where
  in_channels : Nat
  out_channels : Nat
  kernel_size : Nat
  stride : ℤ
  padding : ℤ
  dilation : ℤ
  groups : ℤ
  weight : Tensor4
  bias : Option Tensor1

/-- `CustomConv2d.__init__`: the only asserts are `isinstance` checks on
`kernel_size`, `stride` and `padding`, which integer-typed arguments
always satisfy, so construction always succeeds; `dilation` and `groups`
are stored but never used; `bias=False` registers the bias parameter as
`None`.  The random values produced by `reset_parameters` are abstracted
as the `weightData` / `biasData` arguments. -/
def CustomConv2d.init (in_channels out_channels kernel_size : Nat)
    (stride padding dilation groups : ℤ) (useBias : Bool)
    (weightData : Nat → Nat → Nat → Nat → ℤ) (biasData : Nat → ℤ) :
    Except ConvError CustomConv2d :=
  Except.ok
    { in_channels := in_channels
      out_channels := out_channels
      kernel_size := kernel_size
      stride := stride
      padding := padding
      dilation := dilation
      groups := groups
      weight := ⟨out_channels, in_channels, kernel_size, kernel_size, weightData⟩
      bias := if useBias then some ⟨out_channels, biasData⟩ else none }

/-- `CustomConv2d.forward`: calls the custom op on the stored
parameters (source line 177). -/
def CustomConv2d.forward (m : CustomConv2d) (input : Tensor4) : Except ConvError Tensor4 :=
  CustomConv2DFunction.forward input m.weight m.bias m.stride m.padding

/-! ### Reference definitions taken from the specification's words

These follow the spec, not the source, and are compared against the
embedded source definitions in the theorems below. -/

/-- Reference cross-correlation convolution, written as the spec's
direct nested loop: output element `(n, f, i, j)` is the bias of channel
`f` plus the sum, over the input channels and the `K × K` kernel
offsets, of the zero-padded input at `(i·s + ki, j·s + kj)` (coordinates
of the padded plane) times the corresponding weight. -/
def refConvAt (input w : Tensor4) (b : Tensor1) (s p : Nat) (n f i j : Nat) : ℤ :=
  b.data f +
    ∑ c ∈ Finset.range w.size1, ∑ ki ∈ Finset.range w.size2, ∑ kj ∈ Finset.range w.size3,
      (if p ≤ i * s + ki ∧ i * s + ki < input.size2 + p ∧
          p ≤ j * s + kj ∧ j * s + kj < input.size3 + p then
        input.data n c (i * s + ki - p) (j * s + kj - p)
      else 0) * w.data f c ki kj

/-- The spec's scatter-accumulation form of the input gradient: pixel
`(i, j)` of channel `c` receives, from every sliding-window position
`(li, lj)` whose receptive field covers the pixel, the corresponding row
of `WeightFlatᵀ × GradOutputColumn`, and these contributions are
summed over all covering windows. -/
def gradInputAdjointAt (wflat : Tensor2) (g : Tensor4) (k s p : Nat) (n c i j : Nat) : ℤ :=
  ∑ li ∈ Finset.range g.size2, ∑ lj ∈ Finset.range g.size3,
    if (li * s ≤ i + p ∧ i + p < li * s + k) ∧ (lj * s ≤ j + p ∧ j + p < lj * s + k) then
      ∑ f ∈ Finset.range g.size1,
        wflat.data f (c * (k * k) + (i + p - li * s) * k + (j + p - lj * s)) * g.data n f li lj
    else 0

/-- The spec's form of the weight gradient: entry `(f, c, ki, kj)` is
the sum, over the batch and over all `L` sliding-window positions, of
the cached patch entry `(c·K·K + ki·K + kj, l)` times the GradOutput
entry of output channel `f` at window `l`. -/
def gradWeightSpecAt (patches : Tensor3) (g : Tensor4) (k : Nat) (f c ki kj : Nat) : ℤ :=
  ∑ n ∈ Finset.range patches.size0, ∑ l ∈ Finset.range patches.size2,
    patches.data n (c * (k * k) + ki * k + kj) l * g.data n f (l / g.size3) (l % g.size3)

/-- The spec's bias gradient: the sum of GradOutput over the batch axis
and both spatial axes, one entry per output channel. -/
def gradBiasSpec (g : Tensor4) : Tensor1 where
  size0 := g.size1
  data := fun f =>
    ∑ n ∈ Finset.range g.size0, ∑ i ∈ Finset.range g.size2, ∑ j ∈ Finset.range g.size3,
      g.data n f i j

/-! ### Concrete tensors used by the witnesses -/

/-- All-ones rank-4 tensor of the given shape. -/
def onesT4 (a b c d : Nat) : Tensor4 :=
  ⟨a, b, c, d, fun _ _ _ _ => 1⟩

/-- All-zeros rank-1 tensor of the given length. -/
def zeroT1 (a : Nat) : Tensor1 :=
  ⟨a, fun _ => 0⟩

/-- Context as saved by a forward call on an all-ones `(1,1,4,4)` input
with an all-ones `(1,1,3,3)` weight, zero bias, stride 1, padding 0. -/
def exCtx44 : Context where
  input_feats_unfold := unfold (onesT4 1 1 4 4) 3 0 1
  weight_unfold := (onesT4 1 1 3 3).flatten2
  weight := onesT4 1 1 3 3
  bias := some (zeroT1 1)
  stride := 1
  padding := 0
  input_height := 4
  input_width := 4

/-- All-ones upstream gradient matching `exCtx44`'s output shape. -/
def exG22 : Tensor4 :=
  onesT4 1 1 2 2

/-- Wrapper instance with default `dilation=1`, `groups=1`. -/
def exM1 : CustomConv2d :=
  ⟨1, 1, 3, 1, 0, 1, 1, onesT4 1 1 3 3, some (zeroT1 1)⟩

/-- Wrapper identical to `exM1` except for `dilation=2`, `groups=4`. -/
def exM2 : CustomConv2d :=
  ⟨1, 1, 3, 1, 0, 2, 4, onesT4 1 1 3 3, some (zeroT1 1)⟩

/-! ### Helper lemmas -/

lemma outDim_pos (m k p s : Nat) : 0 < outDim m k p s :=
  Nat.succ_pos _

lemma outDim_one (m : Nat) (hm : 0 < m) : outDim m 1 0 1 = m := by
  simp [outDim]
  omega

/-- Row-major decomposition of a sum over `range (a * b)`. -/
lemma sum_range_mul (f : Nat → ℤ) (a b : Nat) :
    ∑ q ∈ Finset.range (a * b), f q
      = ∑ i ∈ Finset.range a, ∑ j ∈ Finset.range b, f (i * b + j) := by
  induction a with
  | zero => simp
  | succ n ih =>
    have hsplit := Finset.sum_Ico_consecutive f (Nat.zero_le (n * b)) (Nat.le_add_right (n * b) b)
    have hshift : ∑ q ∈ Finset.Ico (n * b) (n * b + b), f q
        = ∑ j ∈ Finset.range b, f (n * b + j) := by
      rw [Finset.sum_Ico_eq_sum_range]
      simp
    calc ∑ q ∈ Finset.range ((n + 1) * b), f q
        = ∑ q ∈ Finset.Ico 0 (n * b + b), f q := by rw [← Finset.range_eq_Ico, Nat.succ_mul]
      _ = (∑ q ∈ Finset.Ico 0 (n * b), f q) + ∑ q ∈ Finset.Ico (n * b) (n * b + b), f q :=
          hsplit.symm
      _ = (∑ i ∈ Finset.range n, ∑ j ∈ Finset.range b, f (i * b + j))
            + ∑ j ∈ Finset.range b, f (n * b + j) := by
          rw [← Finset.range_eq_Ico, ih, hshift]
      _ = ∑ i ∈ Finset.range (n + 1), ∑ j ∈ Finset.range b, f (i * b + j) := by
          rw [Finset.sum_range_succ]

lemma sum_range_ite_eq (n i : Nat) (hi : i < n) (A : Nat → ℤ) :
    (∑ x ∈ Finset.range n, if x = i then A x else 0) = A i := by
  rw [Finset.sum_ite_eq' (Finset.range n) i A]
  simp [hi]

lemma sum_ite_push (n : Nat) (c : Prop) [Decidable c] (F : Nat → ℤ) :
    (∑ x ∈ Finset.range n, if c then F x else 0)
      = if c then ∑ x ∈ Finset.range n, F x else 0 := by
  split_ifs <;> simp

/-- Collapsing a sum over kernel offsets against the constraint
`base + ki = target`: at most one offset satisfies it, and one does
exactly when `base ≤ target < base + K`. -/
lemma sum_range_shift_ite (K base target : Nat) (A : Nat → ℤ) :
    (∑ ki ∈ Finset.range K, if base + ki = target then A ki else 0)
      = if base ≤ target ∧ target < base + K then A (target - base) else 0 := by
  split_ifs with h
  · obtain ⟨h1, h2⟩ := h
    have hmem : target - base ∈ Finset.range K := Finset.mem_range.mpr (by omega)
    rw [Finset.sum_eq_single_of_mem (target - base) hmem
      (fun b _ hb => if_neg (by omega))]
    exact if_pos (by omega)
  · apply Finset.sum_eq_zero
    intro b hb
    have := Finset.mem_range.mp hb
    exact if_neg (by omega)

lemma sum2_range_ite_eq (m n i j : Nat) (hi : i < m) (hj : j < n) (A : Nat → Nat → ℤ) :
    (∑ x ∈ Finset.range m, ∑ y ∈ Finset.range n, if x = i ∧ y = j then A x y else 0)
      = A i j := by
  have inner : ∀ x, (∑ y ∈ Finset.range n, if x = i ∧ y = j then A x y else 0)
      = if x = i then (∑ y ∈ Finset.range n, if y = j then A x y else 0) else 0 := by
    intro x
    simp only [ite_and]
    exact sum_ite_push n (x = i) _
  simp only [inner]
  rw [sum_range_ite_eq m i hi, sum_range_ite_eq n j hj]

/-- Recovering `(c, ki, kj)` from the row-major flat index
`c·K·K + ki·K + kj` by division and remainder. -/
lemma decode_q (K c ki kj : Nat) (hki : ki < K) (hkj : kj < K) :
    (c * (K * K) + ki * K + kj) / (K * K) = c ∧
      (c * (K * K) + ki * K + kj) % (K * K) / K = ki ∧
      (c * (K * K) + ki * K + kj) % (K * K) % K = kj := by
  have hK : 0 < K := Nat.lt_of_le_of_lt (Nat.zero_le ki) hki
  have hr : ki * K + kj < K * K := by
    calc ki * K + kj < ki * K + K := by omega
      _ = (ki + 1) * K := by ring
      _ ≤ K * K := Nat.mul_le_mul_right K hki
  have hq : c * (K * K) + ki * K + kj = (ki * K + kj) + (K * K) * c := by ring
  have hmod : (c * (K * K) + ki * K + kj) % (K * K) = ki * K + kj := by
    rw [hq, Nat.add_mul_mod_self_left, Nat.mod_eq_of_lt hr]
  have hkij : ki * K + kj = kj + K * ki := by ring
  refine ⟨?_, ?_, ?_⟩
  · rw [hq, Nat.add_mul_div_left _ _ (Nat.mul_pos hK hK), Nat.div_eq_of_lt hr]
    omega
  · rw [hmod, hkij, Nat.add_mul_div_left _ _ hK, Nat.div_eq_of_lt hkj]
    omega
  · rw [hmod, hkij, Nat.add_mul_mod_self_left, Nat.mod_eq_of_lt hkj]

lemma index_div_mod (ow i j : Nat) (hj : j < ow) :
    (i * ow + j) / ow = i ∧ (i * ow + j) % ow = j := by
  have h : i * ow + j = j + ow * i := by ring
  constructor
  · rw [h, Nat.add_mul_div_left _ _ (by omega), Nat.div_eq_of_lt hj]
    omega
  · rw [h, Nat.add_mul_mod_self_left, Nat.mod_eq_of_lt hj]

/-- `unfold` with a `1 × 1` kernel, no padding and stride 1 merely
reshapes the two spatial axes into one column axis. -/
lemma unfold_one_data (g : Tensor4) (hw : 0 < g.size3) (n f l : Nat)
    (hl : l < g.size2 * g.size3) :
    (unfold g 1 0 1).data n f l = g.data n f (l / g.size3) (l % g.size3) := by
  have hgw := outDim_one g.size3 hw
  have h2 : l / g.size3 < g.size2 := (Nat.div_lt_iff_lt_mul hw).mpr hl
  have h3 : l % g.size3 < g.size3 := Nat.mod_lt _ hw
  simp [unfold, Tensor4.padded, hgw, h2, h3, Nat.mod_one]

/-- Pointwise description of `fold`: the pixel `(i, j)` (in padded
coordinates `i + p`, `j + p`) accumulates, from every window position
`(li, lj)` whose `k × k` receptive field covers it, the column entry at
the matching kernel offset. -/
lemma fold_data_eq (cols : Tensor3) (h w k p s : Nat) (n c i j : Nat) :
    (fold cols h w k p s).data n c i j
      = ∑ li ∈ Finset.range (outDim h k p s), ∑ lj ∈ Finset.range (outDim w k p s),
          if (li * s ≤ i + p ∧ i + p < li * s + k) ∧ (lj * s ≤ j + p ∧ j + p < lj * s + k) then
            cols.data n (c * (k * k) + (i + p - li * s) * k + (j + p - lj * s))
              (li * outDim w k p s + lj)
          else 0 := by
  show (∑ li ∈ Finset.range (outDim h k p s), ∑ lj ∈ Finset.range (outDim w k p s),
      ∑ ki ∈ Finset.range k, ∑ kj ∈ Finset.range k,
        if li * s + ki = i + p ∧ lj * s + kj = j + p then
          cols.data n (c * (k * k) + ki * k + kj) (li * outDim w k p s + lj)
        else 0) = _
  apply Finset.sum_congr rfl
  intro li _
  apply Finset.sum_congr rfl
  intro lj _
  have step1 : ∀ ki, (∑ kj ∈ Finset.range k,
      if li * s + ki = i + p ∧ lj * s + kj = j + p then
        cols.data n (c * (k * k) + ki * k + kj) (li * outDim w k p s + lj)
      else 0)
      = if li * s + ki = i + p then
          (∑ kj ∈ Finset.range k, if lj * s + kj = j + p then
            cols.data n (c * (k * k) + ki * k + kj) (li * outDim w k p s + lj)
          else 0)
        else 0 := by
    intro ki
    simp only [ite_and]
    exact sum_ite_push k (li * s + ki = i + p) _
  simp only [step1]
  rw [sum_range_shift_ite k (li * s) (i + p)]
  rw [sum_range_shift_ite k (lj * s) (j + p)]
  rw [← ite_and]

/-- Data of the transposed product `(Aᵀ · M)ᵀ` used by both passes:
entry `(n, q, l)` contracts column `l` of `A` with row `q` of `Mᵀ`. -/
lemma matmul2T_data (a3 : Tensor3) (m2 : Tensor2) (n q l : Nat) :
    ((a3.transpose12.matmul2 m2).transpose12).data n q l
      = ∑ x ∈ Finset.range a3.size1, a3.data n x l * m2.data x q := rfl

/-- When all asserts pass and the bias is present, `forward` succeeds
with the `forwardResult` pipeline. -/
lemma forward_eq_ok (input w : Tensor4) (b : Tensor1) (s p : ℤ)
    (h : forwardPrecond input w s p) :
    CustomConv2DFunction.forward input w (some b) s p
      = Except.ok (forwardResult input w b s p) := by
  obtain ⟨h1, h2, h3, h4, h5, h6⟩ := h
  have h5' : (w.size3 : ℤ) ≤ (input.size2 : ℤ) + 2 * p := by rw [← h1]; exact h5
  have h6' : (w.size3 : ℤ) ≤ (input.size3 : ℤ) + 2 * p := by rw [← h1]; exact h6
  simp [CustomConv2DFunction.forward, h1, h2, h3, h4, h5, h6, h5', h6']

/-- The forward pipeline computes the reference convolution at every
in-range output index. -/
lemma forwardResult_data (input w : Tensor4) (b : Tensor1) (s p : ℤ)
    (hsq : w.size2 = w.size3) (hch : input.size1 = w.size1)
    (n f i j : Nat)
    (hi : i < outDim input.size2 w.size2 p.toNat s.toNat)
    (hj : j < outDim input.size3 w.size2 p.toNat s.toNat) :
    (forwardResult input w b s p).data n f i j
      = refConvAt input w b s.toNat p.toNat n f i j := by
  have hoh : outDim (outDim input.size2 w.size2 p.toNat s.toNat) 1 0 1
      = outDim input.size2 w.size2 p.toNat s.toNat := outDim_one _ (outDim_pos _ _ _ _)
  have how : outDim (outDim input.size3 w.size2 p.toNat s.toNat) 1 0 1
      = outDim input.size3 w.size2 p.toNat s.toNat := outDim_one _ (outDim_pos _ _ _ _)
  have hl := index_div_mod (outDim input.size3 w.size2 p.toNat s.toNat) i j hj
  have hstep : (forwardResult input w b s p).data n f i j
      = ((unfold input w.size2 p.toNat s.toNat).transpose12.matmul2 w.flatten2.t).transpose12.data
          n f (i * outDim input.size3 w.size2 p.toNat s.toNat + j) + b.data f := by
    simp only [forwardResult, fold, hoh, how, Finset.sum_range_one, Nat.mul_one, Nat.add_zero]
    rw [sum2_range_ite_eq _ _ i j hi hj]
    simp [Tensor3.add]
  rw [hstep]
  have hmain : ((unfold input w.size2 p.toNat s.toNat).transpose12.matmul2
        w.flatten2.t).transpose12.data n f
          (i * outDim input.size3 w.size2 p.toNat s.toNat + j)
      = ∑ c ∈ Finset.range w.size1, ∑ ki ∈ Finset.range w.size2, ∑ kj ∈ Finset.range w.size3,
          (if p.toNat ≤ i * s.toNat + ki ∧ i * s.toNat + ki < input.size2 + p.toNat ∧
              p.toNat ≤ j * s.toNat + kj ∧ j * s.toNat + kj < input.size3 + p.toNat then
            input.data n c (i * s.toNat + ki - p.toNat) (j * s.toNat + kj - p.toNat)
          else 0) * w.data f c ki kj := by
    calc ((unfold input w.size2 p.toNat s.toNat).transpose12.matmul2
          w.flatten2.t).transpose12.data n f
            (i * outDim input.size3 w.size2 p.toNat s.toNat + j)
        = ∑ q ∈ Finset.range (input.size1 * (w.size2 * w.size2)),
            (unfold input w.size2 p.toNat s.toNat).data n q
                (i * outDim input.size3 w.size2 p.toNat s.toNat + j)
              * w.flatten2.data f q := rfl
      _ = ∑ c ∈ Finset.range input.size1, ∑ r ∈ Finset.range (w.size2 * w.size2),
            (unfold input w.size2 p.toNat s.toNat).data n (c * (w.size2 * w.size2) + r)
                (i * outDim input.size3 w.size2 p.toNat s.toNat + j)
              * w.flatten2.data f (c * (w.size2 * w.size2) + r) :=
          sum_range_mul _ _ _
      _ = ∑ c ∈ Finset.range input.size1, ∑ ki ∈ Finset.range w.size2,
            ∑ kj ∈ Finset.range w.size2,
            (unfold input w.size2 p.toNat s.toNat).data n
                (c * (w.size2 * w.size2) + (ki * w.size2 + kj))
                (i * outDim input.size3 w.size2 p.toNat s.toNat + j)
              * w.flatten2.data f (c * (w.size2 * w.size2) + (ki * w.size2 + kj)) :=
          Finset.sum_congr rfl fun c _ => sum_range_mul _ _ _
      _ = ∑ c ∈ Finset.range input.size1, ∑ ki ∈ Finset.range w.size2,
            ∑ kj ∈ Finset.range w.size2,
            (if p.toNat ≤ i * s.toNat + ki ∧ i * s.toNat + ki < input.size2 + p.toNat ∧
                p.toNat ≤ j * s.toNat + kj ∧ j * s.toNat + kj < input.size3 + p.toNat then
              input.data n c (i * s.toNat + ki - p.toNat) (j * s.toNat + kj - p.toNat)
            else 0) * w.data f c ki kj := by
          apply Finset.sum_congr rfl
          intro c _
          apply Finset.sum_congr rfl
          intro ki hki
          apply Finset.sum_congr rfl
          intro kj hkj
          have hki' := Finset.mem_range.mp hki
          have hkj' := Finset.mem_range.mp hkj
          have hdq := decode_q w.size2 c ki kj hki' hkj'
          have hassoc : c * (w.size2 * w.size2) + (ki * w.size2 + kj)
              = c * (w.size2 * w.size2) + ki * w.size2 + kj := (Nat.add_assoc _ _ _).symm
          congr 1
          · simp only [unfold]
            rw [hassoc, hdq.1, hdq.2.1, hdq.2.2, hl.1, hl.2]
            rfl
          · simp only [Tensor4.flatten2]
            rw [← hsq, hassoc, hdq.1, hdq.2.1, hdq.2.2]
      _ = ∑ c ∈ Finset.range w.size1, ∑ ki ∈ Finset.range w.size2,
            ∑ kj ∈ Finset.range w.size3,
            (if p.toNat ≤ i * s.toNat + ki ∧ i * s.toNat + ki < input.size2 + p.toNat ∧
                p.toNat ≤ j * s.toNat + kj ∧ j * s.toNat + kj < input.size3 + p.toNat then
              input.data n c (i * s.toNat + ki - p.toNat) (j * s.toNat + kj - p.toNat)
            else 0) * w.data f c ki kj := by
          rw [hch]
          apply Finset.sum_congr rfl
          intro c _
          apply Finset.sum_congr rfl
          intro ki _
          rw [hsq]
  rw [hmain]
  simp only [refConvAt]
  exact add_comm _ _

/-! ### Claim theorems -/

/-- C1.  For every input, weight, bias, stride `s > 0` and padding
`p ≥ 0` satisfying the fit and channel preconditions, the forward pass
succeeds and its output equals, at every in-range index, the
independently computed direct nested-loop reference cross-correlation
with the bias broadcast-added per output channel. -/
theorem conv_forward_matches_reference (input w : Tensor4) (b : Tensor1) (s p : ℤ)
    (hpre : forwardPrecond input w s p) (hb : b.size0 = w.size0) :
    ∃ t, CustomConv2DFunction.forward input w (some b) s p = Except.ok t ∧
      ∀ n f i j, n < input.size0 → f < w.size0 →
        i < outDim input.size2 w.size2 p.toNat s.toNat →
        j < outDim input.size3 w.size2 p.toNat s.toNat →
        t.data n f i j = refConvAt input w b s.toNat p.toNat n f i j := by
  refine ⟨forwardResult input w b s p, forward_eq_ok input w b s p hpre, ?_⟩
  intro n f i j _ _ hi hj
  exact forwardResult_data input w b s p hpre.1 hpre.2.1 n f i j hi hj

/-- Witness for C1: the concrete scenario of the spec — all-ones
`(1,1,5,5)` input, all-ones `(1,1,3,3)` weight, zero bias, stride 1,
padding 0 — succeeds and the reference value at an output position is
`9`, the sum of a `3 × 3` all-ones patch. -/
theorem conv_forward_matches_reference_witness :
    ∃ t, CustomConv2DFunction.forward (onesT4 1 1 5 5) (onesT4 1 1 3 3)
        (some (zeroT1 1)) 1 0 = Except.ok t ∧
      t.data 0 0 0 0 = 9 ∧ t.data 0 0 0 1 = 9 ∧ t.data 0 0 0 2 = 9 ∧
      t.data 0 0 1 0 = 9 ∧ t.data 0 0 1 1 = 9 ∧ t.data 0 0 1 2 = 9 ∧
      t.data 0 0 2 0 = 9 ∧ t.data 0 0 2 1 = 9 ∧ t.data 0 0 2 2 = 9 := by
  obtain ⟨t, ht, hdata⟩ := conv_forward_matches_reference (onesT4 1 1 5 5) (onesT4 1 1 3 3)
    (zeroT1 1) 1 0 (by decide) (by decide)
  have hall : ∀ i j : Nat, i < 3 → j < 3 → t.data 0 0 i j = 9 := by
    intro i j hi hj
    rw [hdata 0 0 i j (by decide) (by decide) hi hj]
    interval_cases i <;> interval_cases j <;> decide
  exact ⟨t, ht, hall 0 0 (by decide) (by decide), hall 0 1 (by decide) (by decide),
    hall 0 2 (by decide) (by decide), hall 1 0 (by decide) (by decide),
    hall 1 1 (by decide) (by decide), hall 1 2 (by decide) (by decide),
    hall 2 0 (by decide) (by decide), hall 2 1 (by decide) (by decide),
    hall 2 2 (by decide) (by decide)⟩

/-- C4.  For every input, weight, stride and padding satisfying the
preconditions, the forward pass's output tensor has shape exactly
`(N, C_out, ⌊(H + 2p − K)/s⌋ + 1, ⌊(W + 2p − K)/s⌋ + 1)` (all
quantities are non-negative here, so `Nat` division is the floor). -/
theorem conv_forward_shape_law (input w : Tensor4) (b : Tensor1) (s p : ℤ)
    (hpre : forwardPrecond input w s p) :
    ∃ t, CustomConv2DFunction.forward input w (some b) s p = Except.ok t ∧
      t.size0 = input.size0 ∧ t.size1 = w.size0 ∧
      t.size2 = (input.size2 + 2 * p.toNat - w.size2) / s.toNat + 1 ∧
      t.size3 = (input.size3 + 2 * p.toNat - w.size2) / s.toNat + 1 := by
  refine ⟨forwardResult input w b s p, forward_eq_ok input w b s p hpre, rfl, ?_, rfl, rfl⟩
  show w.size0 / (1 * 1) = w.size0
  simp

/-- Witness for C4: the spec's concrete scenario has output shape
`(1, 1, 3, 3)`. -/
theorem conv_forward_shape_law_witness :
    ∃ t, CustomConv2DFunction.forward (onesT4 1 1 5 5) (onesT4 1 1 3 3)
        (some (zeroT1 1)) 1 0 = Except.ok t ∧
      t.size0 = 1 ∧ t.size1 = 1 ∧ t.size2 = 3 ∧ t.size3 = 3 := by
  obtain ⟨t, ht, h0, h1, h2, h3⟩ := conv_forward_shape_law (onesT4 1 1 5 5) (onesT4 1 1 3 3)
    (zeroT1 1) 1 0 (by decide)
  exact ⟨t, ht, h0.trans (by decide), h1.trans (by decide), h2.trans (by decide),
    h3.trans (by decide)⟩

/-- C2.  For every backward call with stride smaller than the kernel
(and a gradient whose spatial shape matches the forward output shape
recorded in the context), every in-range input pixel of `GradInput`
receives the sum of the `WeightFlatᵀ × GradOutputColumn` contributions
of all receptive-field windows covering it — the adjoint of the
forward's overlapping gather — not the value of a single window. -/
theorem backward_grad_input_scatter_adds (ctx : Context) (g : Tensor4) (nb : Bool)
    (hsk : ctx.stride < ctx.weight.size2)
    (hh : g.size2 = outDim ctx.input_height ctx.weight.size2 ctx.padding ctx.stride)
    (hw : g.size3 = outDim ctx.input_width ctx.weight.size2 ctx.padding ctx.stride)
    (n c i j : Nat) (hi : i < ctx.input_height) (hj : j < ctx.input_width) :
    (CustomConv2DFunction.backward ctx g nb).grad_input.data n c i j
      = gradInputAdjointAt ctx.weight_unfold g ctx.weight.size2 ctx.stride ctx.padding
          n c i j := by
  have hfold : (CustomConv2DFunction.backward ctx g nb).grad_input
      = fold ((unfold g 1 0 1).transpose12.matmul2 ctx.weight_unfold).transpose12
          ctx.input_height ctx.input_width ctx.weight.size2 ctx.padding ctx.stride := rfl
  rw [hfold, fold_data_eq]
  simp only [gradInputAdjointAt]
  rw [← hh, ← hw]
  apply Finset.sum_congr rfl
  intro li hli
  apply Finset.sum_congr rfl
  intro lj hlj
  have hli' := Finset.mem_range.mp hli
  have hlj' := Finset.mem_range.mp hlj
  split_ifs with hcov
  · rw [matmul2T_data]
    have hrange : (unfold g 1 0 1).size1 = g.size1 := by
      show g.size1 * (1 * 1) = g.size1
      simp
    rw [hrange]
    apply Finset.sum_congr rfl
    intro x _
    have hlt : li * g.size3 + lj < g.size2 * g.size3 := by
      calc li * g.size3 + lj < li * g.size3 + g.size3 := by omega
        _ = (li + 1) * g.size3 := by ring
        _ ≤ g.size2 * g.size3 := Nat.mul_le_mul_right _ hli'
    rw [unfold_one_data g (by omega) n x _ hlt,
      (index_div_mod g.size3 li lj hlj').1, (index_div_mod g.size3 li lj hlj').2]
    exact mul_comm _ _
  · rfl

/-- Witness for C2: the spec's minimal overlap scenario — 1-channel
`4 × 4` input, `3 × 3` all-ones kernel, stride 1, padding 0, all-ones
upstream gradient — where the backward input gradient at the interior
pixel `(1,1)` equals the adjoint sum over its covering windows, and that
sum is `4`, one contribution from each of the four covering windows. -/
theorem backward_grad_input_scatter_adds_witness :
    (CustomConv2DFunction.backward exCtx44 exG22 true).grad_input.data 0 0 1 1
        = gradInputAdjointAt exCtx44.weight_unfold exG22 exCtx44.weight.size2 exCtx44.stride
            exCtx44.padding 0 0 1 1 ∧
      (CustomConv2DFunction.backward exCtx44 exG22 true).grad_input.data 0 0 1 1 = 4 := by
  constructor
  · exact backward_grad_input_scatter_adds exCtx44 exG22 true (by decide) (by decide)
      (by decide) 0 0 1 1 (by decide) (by decide)
  · decide

/-- C6.  For every backward call (with the cached patch count matching
the gradient's spatial extent), `GradWeight` at `(f, c, ki, kj)` equals
the sum over the batch and all sliding-window positions of the product
of the cached patch entry and the corresponding GradOutput entry of
output channel `f` — the outer-product accumulation reshaped to
`(C_out, C_in, K, K)`. -/
theorem backward_grad_weight_outer_sum (ctx : Context) (g : Tensor4) (nb : Bool)
    (hL : ctx.input_feats_unfold.size2 = g.size2 * g.size3) (hw3 : 0 < g.size3)
    (f c ki kj : Nat) :
    (CustomConv2DFunction.backward ctx g nb).grad_weight.data f c ki kj
      = gradWeightSpecAt ctx.input_feats_unfold g ctx.weight.size2 f c ki kj := by
  have hgw : (CustomConv2DFunction.backward ctx g nb).grad_weight
      = (ctx.input_feats_unfold.matmul3
          (unfold g 1 0 1).transpose12).transpose12.sumDim0.view4 ctx.weight.size2 := rfl
  rw [hgw]
  calc ((ctx.input_feats_unfold.matmul3
        (unfold g 1 0 1).transpose12).transpose12.sumDim0.view4 ctx.weight.size2).data f c ki kj
      = ∑ m ∈ Finset.range ctx.input_feats_unfold.size0,
          ∑ l ∈ Finset.range ctx.input_feats_unfold.size2,
            ctx.input_feats_unfold.data m
                (c * (ctx.weight.size2 * ctx.weight.size2) + ki * ctx.weight.size2 + kj) l
              * (unfold g 1 0 1).data m f l := rfl
    _ = gradWeightSpecAt ctx.input_feats_unfold g ctx.weight.size2 f c ki kj := by
        simp only [gradWeightSpecAt]
        apply Finset.sum_congr rfl
        intro m _
        apply Finset.sum_congr rfl
        intro l hl
        have hl' : l < g.size2 * g.size3 := by
          rw [← hL]
          exact Finset.mem_range.mp hl
        rw [unfold_one_data g hw3 m f l hl']

/-- Witness for C6: on the `4 × 4` all-ones scenario the weight-gradient
entry `(0,0,1,1)` equals the spec's outer-product sum, whose value is
`4` (one term per sliding-window position). -/
theorem backward_grad_weight_outer_sum_witness :
    (CustomConv2DFunction.backward exCtx44 exG22 true).grad_weight.data 0 0 1 1
        = gradWeightSpecAt exCtx44.input_feats_unfold exG22 exCtx44.weight.size2 0 0 1 1 ∧
      (CustomConv2DFunction.backward exCtx44 exG22 true).grad_weight.data 0 0 1 1 = 4 := by
  constructor
  · exact backward_grad_weight_outer_sum exCtx44 exG22 true (by decide) (by decide) 0 0 1 1
  · decide

/-- C7.  `GradBias` is the sum of GradOutput over the batch axis and
both spatial axes exactly when a bias was saved and its gradient is
requested; otherwise it is omitted (`none`). -/
theorem backward_grad_bias_rule (ctx : Context) (g : Tensor4) (nb : Bool) :
    (CustomConv2DFunction.backward ctx g nb).grad_bias
      = if ctx.bias.isSome = true ∧ nb = true then some (gradBiasSpec g) else none := by
  by_cases h1 : ctx.bias.isSome <;> by_cases h2 : nb <;>
    simp [CustomConv2DFunction.backward, h1, h2] <;> rfl

/-- C8.  The gradients returned for the stride and padding arguments are
the `None` marker (never a zero tensor): the backward tuple ends with
two `none` components. -/
theorem backward_stride_padding_grads_none (ctx : Context) (g : Tensor4) (nb : Bool) :
    (CustomConv2DFunction.backward ctx g nb).grad_stride = none ∧
      (CustomConv2DFunction.backward ctx g nb).grad_padding = none :=
  ⟨rfl, rfl⟩

/-- C3 (code bug).  Calling `forward` with the bias absent does not
succeed: the unconditional `bias.expand` on line 66 raises
`AttributeError` on `None`, here shown on the spec's concrete scenario
with `bias=None`, contradicting the documented optional-bias contract. -/
theorem forward_bias_none_attribute_error :
    CustomConv2DFunction.forward (onesT4 1 1 5 5) (onesT4 1 1 3 3) none 1 0
      = Except.error ConvError.attributeErrorBiasNone := rfl

/-- C5.  `forward` fails with a precondition (`assert`) error exactly
when one of the six asserted preconditions — square kernel, channel
match, positive stride, non-negative padding, kernel fits the padded
height and width — is violated; the checks run before the convolution
pipeline, so a failed call produces no partial result, and when all
preconditions hold no precondition error is raised. -/
theorem forward_assert_error_iff (input_feats weight : Tensor4) (bias : Option Tensor1)
    (stride padding : ℤ) :
    (∃ e, CustomConv2DFunction.forward input_feats weight bias stride padding
        = Except.error e ∧ e.isAssert = true)
      ↔ ¬ forwardPrecond input_feats weight stride padding := by
  constructor
  · rintro ⟨e, he, ha⟩ hpre
    obtain ⟨h1, h2, h3, h4, h5, h6⟩ := hpre
    cases bias with
    | some b =>
      rw [forward_eq_ok input_feats weight b stride padding ⟨h1, h2, h3, h4, h5, h6⟩] at he
      exact Except.noConfusion he
    | none =>
      have h5' : (weight.size3 : ℤ) ≤ (input_feats.size2 : ℤ) + 2 * padding := by
        rw [← h1]; exact h5
      have h6' : (weight.size3 : ℤ) ≤ (input_feats.size3 : ℤ) + 2 * padding := by
        rw [← h1]; exact h6
      have hne : CustomConv2DFunction.forward input_feats weight none stride padding
          = Except.error ConvError.attributeErrorBiasNone := by
        simp [CustomConv2DFunction.forward, h1, h2, h3, h4, h5, h6, h5', h6']
      rw [hne] at he
      injection he with he'
      rw [← he'] at ha
      simp [ConvError.isAssert] at ha
  · intro hnpre
    by_cases h1 : weight.size2 = weight.size3
    · by_cases h2 : input_feats.size1 = weight.size1
      · by_cases h3 : (0 : ℤ) < stride
        · by_cases h4 : (0 : ℤ) ≤ padding
          · by_cases h5 : (weight.size2 : ℤ) ≤ (input_feats.size2 : ℤ) + 2 * padding
            · by_cases h6 : (weight.size2 : ℤ) ≤ (input_feats.size3 : ℤ) + 2 * padding
              · exact absurd ⟨h1, h2, h3, h4, h5, h6⟩ hnpre
              · refine ⟨ConvError.assertKernelFitsWidth, ?_, rfl⟩
                have h5' : (weight.size3 : ℤ) ≤ (input_feats.size2 : ℤ) + 2 * padding := by
                  rw [← h1]; exact h5
                have h6' : ¬ (weight.size3 : ℤ) ≤ (input_feats.size3 : ℤ) + 2 * padding := by
                  rw [← h1]; exact h6
                simp [CustomConv2DFunction.forward, h1, h2, h3, h4, h5', h6']
            · refine ⟨ConvError.assertKernelFitsHeight, ?_, rfl⟩
              have h5' : ¬ (weight.size3 : ℤ) ≤ (input_feats.size2 : ℤ) + 2 * padding := by
                rw [← h1]; exact h5
              simp [CustomConv2DFunction.forward, h1, h2, h3, h4, h5']
          · exact ⟨ConvError.assertNonnegPadding,
              by simp [CustomConv2DFunction.forward, h1, h2, h3, h4], rfl⟩
        · exact ⟨ConvError.assertPositiveStride,
            by simp [CustomConv2DFunction.forward, h1, h2, h3], rfl⟩
      · exact ⟨ConvError.assertChannelMatch,
          by simp [CustomConv2DFunction.forward, h1, h2], rfl⟩
    · exact ⟨ConvError.assertSquareKernel,
        by simp [CustomConv2DFunction.forward, h1], rfl⟩

/-- C9.  The `dilation` and `groups` arguments accepted by the wrapper
are no-ops: two wrapper instances agreeing on everything except
`dilation` and `groups` produce identical forward results on every
input, since the wrapper's forward only passes the stored input
channels, weight, bias, stride and padding to the custom op. -/
theorem forward_ignores_dilation_groups (m1 m2 : CustomConv2d)
    (h1 : m1.in_channels = m2.in_channels) (h2 : m1.out_channels = m2.out_channels)
    (h3 : m1.kernel_size = m2.kernel_size) (h4 : m1.stride = m2.stride)
    (h5 : m1.padding = m2.padding) (h6 : m1.weight = m2.weight) (h7 : m1.bias = m2.bias)
    (input : Tensor4) :
    m1.forward input = m2.forward input := by
  unfold CustomConv2d.forward
  rw [h4, h5, h6, h7]

/-- Witness for C9: two concrete wrappers differing only in
`dilation` (1 vs 2) and `groups` (1 vs 4) agree on a concrete input. -/
theorem forward_ignores_dilation_groups_witness :
    exM1.forward (onesT4 1 1 5 5) = exM2.forward (onesT4 1 1 5 5) :=
  forward_ignores_dilation_groups exM1 exM2 rfl rfl rfl rfl rfl rfl rfl (onesT4 1 1 5 5)

/-- C10.  Wrapper construction performs no value-level checks (its
asserts are only `isinstance` checks, always satisfied by integer
arguments): it succeeds for every integer stride and padding, storing
them unchanged, and when the stored stride is non-positive or the
stored padding negative the violation only surfaces as an assert error
at the first `forward` invocation. -/
theorem init_defers_value_checks (in_channels out_channels kernel_size : Nat)
    (stride padding dilation groups : ℤ) (useBias : Bool)
    (weightData : Nat → Nat → Nat → Nat → ℤ) (biasData : Nat → ℤ) :
    ∃ m, CustomConv2d.init in_channels out_channels kernel_size stride padding dilation
        groups useBias weightData biasData = Except.ok m ∧
      m.stride = stride ∧ m.padding = padding ∧
      (stride ≤ 0 ∨ padding < 0 →
        ∀ input, ∃ e, m.forward input = Except.error e ∧ e.isAssert = true) := by
  refine ⟨_, rfl, rfl, rfl, ?_⟩
  intro hbad input
  by_cases hch : input.size1 = in_channels
  · by_cases hs : (0 : ℤ) < stride
    · have hp : ¬ (0 : ℤ) ≤ padding := by
        rcases hbad with hb | hb <;> omega
      exact ⟨ConvError.assertNonnegPadding,
        by simp [CustomConv2d.forward, CustomConv2DFunction.forward, hch, hs, hp], rfl⟩
    · exact ⟨ConvError.assertPositiveStride,
        by simp [CustomConv2d.forward, CustomConv2DFunction.forward, hch, hs], rfl⟩
  · exact ⟨ConvError.assertChannelMatch,
      by simp [CustomConv2d.forward, CustomConv2DFunction.forward, hch], rfl⟩

/-- Witness for C10: with stride `0` (a value `nn.Conv2d` semantics
forbids) construction still succeeds, and the constructed wrapper's
forward then fails with an assert error on a concrete input. -/
theorem init_defers_value_checks_witness :
    ∃ m, CustomConv2d.init 1 1 3 0 0 1 1 true (fun _ _ _ _ => 1) (fun _ => 0)
        = Except.ok m ∧
      ∃ e, m.forward (onesT4 1 1 5 5) = Except.error e ∧ e.isAssert = true := by
  obtain ⟨m, hm, _, _, himp⟩ := init_defers_value_checks 1 1 3 0 0 1 1 true
    (fun _ _ _ _ => 1) (fun _ => 0)
  exact ⟨m, hm, himp (Or.inl (by decide)) (onesT4 1 1 5 5)⟩

end StudentCode
